import Mathlib

/-!
Shallow embedding of the resilient request-execution layer of the
cakemail-mcp-server repository (src/src/api/base-client.ts and
src/src/api/campaign-api.ts), together with spec-modelled components
whose implementation files (src/types/retry.ts, src/types/errors.ts,
src/utils/pagination) are not part of the source snapshot.

Times are modelled as integers (milliseconds since the epoch), HTTP
bodies as opaque strings, and each network interaction as an explicit
outcome value supplied to the function under study.
-/

namespace Cakemail

/-- An HTTP response as observed by the client code.  `body` stands for
the raw response text, which is also the parsed JSON value whenever
`bodyParses` is true; `contentTypeJson` records whether the
content-type header contains `application/json`. -/
structure HttpResponse where
  status : Nat
  statusText : String
  contentTypeJson : Bool
  body : String
  bodyParses : Bool
  deriving Repr, DecidableEq

/-- The `response.ok` predicate of the fetch API: status in the 2xx range. -/
def HttpResponse.ok (r : HttpResponse) : Bool :=
  200 ≤ r.status && r.status < 300

/-- Outcome of one `fetch` call wrapped in `withTimeout`
(base-client.ts:284-293): the promise rejects, the timeout fires, or a
response arrives. -/
inductive FetchOut where
  | reject (msg : String)
  | timedOut (msg : String)
  | resp (r : HttpResponse)
  deriving Repr, DecidableEq

/-- Result of `parseErrorResponse` (base-client.ts:209-225): either a
parsed JSON error body or a fallback `detail` object built from the
raw text or the status text. -/
inductive ErrBody where
  | parsed (s : String)
  | detail (s : String)
  deriving Repr, DecidableEq

/-- Error taxonomy of the client (src/types/errors.ts is not in the
source snapshot; the constructors mirror the classes used by
base-client.ts: CakemailNetworkError, CakemailAuthenticationError and
the structured API error produced by `createCakemailError`, which per
the spec carries the original status code and the parsed error body). -/
inductive CakemailErr where
  | network (msg : String)
  | auth (msg : String)
  | api (status : Nat) (body : ErrBody)
  deriving Repr, DecidableEq

/-- Successful value returned by `executeRequest`: the parsed JSON body
of a 2xx response, or the synthesized success object for bodyless
responses (base-client.ts:346). -/
inductive ApiResult where
  | json (body : String)
  | successStatus (status : Nat)
  deriving Repr, DecidableEq

/-- Embedding of `parseErrorResponse` (base-client.ts:209-225).  When
the content type is JSON, `response.json()` is attempted (failing into
the outer catch, which returns the status text as detail); otherwise
the text is read and `JSON.parse` attempted, falling back to
`detail: text || statusText`. -/
def parseErrorResponse (r : HttpResponse) : ErrBody :=
  if r.contentTypeJson then
    if r.bodyParses then .parsed r.body else .detail r.statusText
  else
    if r.bodyParses then .parsed r.body
    else .detail (if r.body = "" then r.statusText else r.body)

/-- Errors escaping `executeRequest`: one of the client's own error
classes, or the raw rejection of `response.json()` on an ok response
whose body is not valid JSON — that call (base-client.ts:332) sits
outside any try/catch, so the parse error propagates unwrapped, not as
a CakemailError. -/
inductive ExecErr where
  | thrown (e : CakemailErr)
  | jsonParseFail (body : String)
  deriving Repr, DecidableEq

/-- Embedding of `executeRequest` (base-client.ts:254-347).  The token
chosen is `mockToken || token`; with no token an authentication error
is thrown.  A fetch rejection or timeout is surfaced as a network
error (a rejection that is already a CakemailNetworkError is rethrown
as-is, anything else — the timeout error included — is wrapped; both
are the network-error kind).  A non-ok response throws the structured
API error from `createCakemailError` with the parsed error body.  An
ok JSON response returns its parsed body, but when that body is not
valid JSON the `response.json()` call at line 332 — outside any
try/catch — rejects and the raw parse error propagates; an ok response
without a JSON content type returns the success/status object. -/
def executeRequest (mockToken token : Option String) (out : FetchOut) :
    Except ExecErr ApiResult :=
  match mockToken.orElse (fun _ => token) with
  | none => .error (.thrown (.auth "No authentication token available"))
  | some _ =>
    match out with
    | .reject msg => .error (.thrown (.network ("Network error: " ++ msg)))
    | .timedOut msg => .error (.thrown (.network ("Network error: " ++ msg)))
    | .resp r =>
      if r.ok then
        if r.contentTypeJson then
          if r.bodyParses then .ok (.json r.body)
          else .error (.jsonParseFail r.body)
        else .ok (.successStatus r.status)
      else
        .error (.thrown (.api r.status (parseErrorResponse r)))

/-- The token payload returned by the `/token` endpoint
(CakemailToken in src/types/cakemail-types.ts, as used by
base-client.ts: access_token, optional refresh_token, token_type and
expires_in seconds). -/
structure TokenData where
  access_token : String
  refresh_token : Option String
  token_type : String
  expires_in : Int
  deriving Repr, DecidableEq

/-- The credential-related fields of BaseApiClient
(base-client.ts:44-46): the stored token and the adjusted expiry time
in epoch milliseconds. -/
structure ClientState where
  token : Option TokenData
  tokenExpiry : Option Int
  deriving Repr, DecidableEq

/-- Outcome of one request to the `/token` endpoint: a fetch rejection,
or an HTTP response whose JSON body reads as `tok` when the status is
ok and as the error body `body` otherwise. -/
inductive AuthCallOut where
  | reject (msg : String)
  | resp (status : Nat) (body : ErrBody) (tok : TokenData)
  deriving Repr, DecidableEq

/-- Fields of the object computed by `getTokenStatus`
(base-client.ts:382-408) that drive `ensureValidToken`. -/
structure TokenStatus where
  hasToken : Bool
  isExpired : Bool
  needsRefresh : Bool
  hasRefreshToken : Bool
  deriving Repr, DecidableEq

/-- Embedding of `getTokenStatus` (base-client.ts:382-408).
`isExpired` is `now >= tokenExpiry` when an expiry is stored, else the
absence of a token; `needsRefresh` uses the 5-minute (300000 ms)
refresh margin when both a token and an expiry are present. -/
def getTokenStatus (st : ClientState) (now : Int) : TokenStatus :=
  let hasToken := st.token.isSome
  { hasToken := hasToken
    isExpired := match st.tokenExpiry with
      | some e => decide (now ≥ e)
      | none => !hasToken
    needsRefresh := match st.tokenExpiry with
      | some e => if hasToken then decide (now ≥ e - 300000) else !hasToken
      | none => !hasToken
    hasRefreshToken := (st.token.bind (fun t => t.refresh_token)).isSome }

/-- Embedding of `passwordAuthenticate` (base-client.ts:131-161).  A
non-ok response raises CakemailAuthenticationError; an ok response
stores the token with expiry `now + expires_in * 1000 - 60000` (the
one-minute buffer).  A fetch rejection propagates unchanged (network
kind). -/
def passwordAuthenticate (st : ClientState) (now : Int) (out : AuthCallOut) :
    ClientState × Except CakemailErr Unit :=
  match out with
  | .reject msg => (st, .error (.network msg))
  | .resp s _b tok =>
    if 200 ≤ s && s < 300 then
      ({ token := some tok, tokenExpiry := some (now + tok.expires_in * 1000 - 60000) }, .ok ())
    else
      (st, .error (.auth ("Authentication failed (" ++ toString s ++ ")")))

/-- Embedding of `refreshToken` (base-client.ts:163-206).  Without a
stored refresh token it raises immediately.  On a 401 or 403 response
it clears both the token and the expiry and raises
CakemailAuthenticationError; on another non-ok response it raises
without clearing; on success it stores the new token with the
one-minute expiry buffer. -/
def refreshToken (st : ClientState) (now : Int) (out : AuthCallOut) :
    ClientState × Except CakemailErr Unit :=
  match st.token.bind (fun t => t.refresh_token) with
  | none => (st, .error (.auth "No refresh token available"))
  | some _ =>
    match out with
    | .reject msg => (st, .error (.network msg))
    | .resp s _b tok =>
      if 200 ≤ s && s < 300 then
        ({ token := some tok, tokenExpiry := some (now + tok.expires_in * 1000 - 60000) }, .ok ())
      else if s = 401 || s = 403 then
        ({ token := none, tokenExpiry := none },
         .error (.auth "Refresh token invalid, password authentication required"))
      else
        (st, .error (.auth ("Token refresh failed (" ++ toString s ++ ")")))

/-- Network authentication calls observable from outside: a refresh
grant or a password grant against the `/token` endpoint. -/
inductive AuthEv where
  | refreshCall
  | passwordCall
  deriving Repr, DecidableEq

/-- Pops the next network outcome from the supplied stream; an
exhausted stream behaves as a rejected fetch. -/
def takeOut : List AuthCallOut → AuthCallOut × List AuthCallOut
  | [] => (.reject "no outcome", [])
  | o :: rest => (o, rest)

/-- The refresh-first condition of `authenticate`
(base-client.ts:99): a refresh token is stored and `now` is more than
300000 ms before the stored expiry. -/
def tryRefresh (st : ClientState) (now : Int) : Bool :=
  (st.token.bind (fun t => t.refresh_token)).isSome &&
  (match st.tokenExpiry with
   | some e => decide (now < e - 300000)
   | none => false)

/-- Embedding of the retry loop of `authenticate`
(base-client.ts:92-129), with the remaining loop iterations as fuel
and `rc` the current retryCount.  Each iteration optionally tries a
refresh first, swallowing its failure, then performs password
authentication; a failed iteration increments the count, rethrows the
error once the count reaches 3, and otherwise sleeps
`2 ^ retryCount * 1000` ms before the next iteration.  Returns the
final state, the result, the network authentication calls made and the
backoff delays slept. -/
def authGo (now : Int) : Nat → Nat → ClientState → List AuthCallOut →
    ClientState × Except CakemailErr Unit × List AuthEv × List Int
  | 0, _, st, _ => (st, .ok (), [], [])
  | fuel+1, rc, st, outs =>
    let pwdPhase := fun (st1 : ClientState) (outs1 : List AuthCallOut) (evs : List AuthEv) =>
      let (o2, rest2) := takeOut outs1
      let (st2, r2) := passwordAuthenticate st1 now o2
      match r2 with
      | .ok _ => (st2, Except.ok (), evs ++ [AuthEv.passwordCall], ([] : List Int))
      | .error e =>
        let rc1 := rc + 1
        if rc1 ≥ 3 then (st2, .error e, evs ++ [AuthEv.passwordCall], [])
        else
          let d : Int := 2 ^ rc1 * 1000
          let (st3, r3, evs3, ds3) := authGo now fuel rc1 st2 rest2
          (st3, r3, evs ++ [AuthEv.passwordCall] ++ evs3, d :: ds3)
    if tryRefresh st now then
      let (o, rest) := takeOut outs
      let (st1, r1) := refreshToken st now o
      match r1 with
      | .ok _ => (st1, .ok (), [.refreshCall], [])
      | .error _ => pwdPhase st1 rest [.refreshCall]
    else
      pwdPhase st outs []

/-- Embedding of `authenticate` (base-client.ts:92-129):
`maxRetries = 3`, retryCount starts at 0. -/
def authenticate (st : ClientState) (now : Int) (outs : List AuthCallOut) :
    ClientState × Except CakemailErr Unit × List AuthEv × List Int :=
  authGo now 3 0 st outs

/-- Embedding of `ensureValidToken` (base-client.ts:503-521).  With a
mock token it returns immediately; with no token or an expired one it
authenticates; when a refresh is due and a refresh token exists it
tries a refresh and falls back to `authenticate` on any refresh
failure; otherwise the stored token is still valid and nothing
happens. -/
def ensureValidToken (mock : Bool) (st : ClientState) (now : Int)
    (outs : List AuthCallOut) :
    ClientState × Except CakemailErr Unit × List AuthEv × List Int :=
  if mock then (st, .ok (), [], [])
  else
    let s := getTokenStatus st now
    if !s.hasToken || s.isExpired then
      authenticate st now outs
    else if s.needsRefresh && s.hasRefreshToken then
      let (o, rest) := takeOut outs
      let (st1, r1) := refreshToken st now o
      match r1 with
      | .ok _ => (st1, .ok (), [.refreshCall], [])
      | .error _ =>
        let (st2, r2, evs2, ds2) := authenticate st1 now rest
        (st2, r2, .refreshCall :: evs2, ds2)
    else
      (st, .ok (), [], [])

/-! Stage-trace model of the request pipeline composed by `makeRequest`
(base-client.ts:227-252).  Each stage of the composition is one event;
the trace records the order in which the stages run. -/

/-- Pipeline stages of one `makeRequest` call. -/
inductive Ev where
  | ensureValid
  | queueAdmit
  | breakerGate
  | rlAcquire
  | netCall
  | classify
  deriving Repr, DecidableEq

/-- Result of one attempt, as classified by the retry manager. -/
inductive AttemptRes where
  | success
  | retryableFail
  | fatalFail
  deriving Repr, DecidableEq

/-- Stage trace of `rateLimiter.acquire()` guarded by the
`if (this.rateLimiter)` test (base-client.ts:233-235). -/
def rateLimiterAcquireEv (enabled : Bool) : List Ev :=
  if enabled then [.rlAcquire] else []

/-- Stage trace of `executeRequest`: the network call followed by
response classification (base-client.ts:254-347). -/
def executeRequestEv : List Ev := [.netCall, .classify]

/-- Stage trace of the `operation` closure built in `makeRequest`
(base-client.ts:231-238): rate-limit acquisition, then the request. -/
def operationEv (rl : Bool) : List Ev :=
  rateLimiterAcquireEv rl ++ executeRequestEv

/-- Modelled from the spec: RetryManager.executeWithRetry
(src/types/retry.ts is not in the source snapshot).  The operation
runs up to `maxAttempts` times and is re-run only after a retryable
failure; a success or a non-retryable failure ends the loop.  Only the
stage trace is recorded here. -/
def executeWithRetryEv (op : List Ev) : Nat → List AttemptRes → List Ev
  | 0, _ => []
  | _+1, [] => []
  | n+1, o :: rest =>
    op ++ (match o with
      | .success => []
      | .fatalFail => []
      | .retryableFail => executeWithRetryEv op n rest)

/-- Stage trace of `circuitBreaker.execute` guarded by the
`if (this.circuitBreaker)` test (base-client.ts:243-250): the gate
check precedes the wrapped operation when the breaker is enabled. -/
def circuitBreakerExecuteEv (enabled : Bool) (inner : List Ev) : List Ev :=
  if enabled then .breakerGate :: inner else inner

/-- Stage trace of `requestQueue.add` (base-client.ts:241): queue
admission precedes the queued closure. -/
def requestQueueAddEv (inner : List Ev) : List Ev :=
  .queueAdmit :: inner

/-- Stage trace of `makeRequest` (base-client.ts:227-252): first
`await this.ensureValidToken()`, then the queued closure holding the
circuit breaker around the retry manager around the operation. -/
def makeRequestEv (rl cb : Bool) (maxAttempts : Nat) (os : List AttemptRes) : List Ev :=
  .ensureValid ::
    requestQueueAddEv
      (circuitBreakerExecuteEv cb
        (executeWithRetryEv (operationEv rl) maxAttempts os))

/-- The per-attempt stage order claimed by the spec (section 4.6):
rate-limiter acquire, then credential ensureValid, then the network
call and its classification — credential validation inside each
attempt.  Written from the spec's words for comparison with
`makeRequestEv`. -/
def specAttemptEv (rl : Bool) : List Ev :=
  rateLimiterAcquireEv rl ++ [.ensureValid, .netCall, .classify]

/-- The whole-call stage order claimed by the spec (section 4.6):
queue admission, then the circuit-breaker gate, then the retry manager
over `specAttemptEv`.  Written from the spec's words for comparison
with `makeRequestEv`. -/
def specMakeRequestEv (rl cb : Bool) (maxAttempts : Nat) (os : List AttemptRes) : List Ev :=
  requestQueueAddEv
    (circuitBreakerExecuteEv cb
      (executeWithRetryEv (specAttemptEv rl) maxAttempts os))

/-! Value-level model of the retry manager, for the failure
classification policy. -/

/-- Modelled from the spec: the retryable-failure classifier of
RetryManager (src/types/retry.ts is not in the source snapshot;
spec sections 4.3 and 7).  Network errors, 5xx server errors and 429
rate-limit responses are retryable; other 4xx client errors and
authentication failures are not. -/
def isRetryable : CakemailErr → Bool
  | .network _ => true
  | .auth _ => false
  | .api s _ => (500 ≤ s && s ≤ 599) || s = 429

/-- Modelled from the spec: the result behaviour of
RetryManager.executeWithRetry (src/types/retry.ts is not in the source
snapshot).  One outcome per attempt; a success or a non-retryable
error is returned at once with the number of attempts made; a
retryable error is retried while budget remains, the last error being
surfaced on exhaustion.  `none` when the budget or the outcome stream
is exhausted with an attempt still pending. -/
def runRetry {α : Type} : Nat → List (Except CakemailErr α) →
    Option (Except CakemailErr α × Nat)
  | 0, _ => none
  | _+1, [] => none
  | n+1, o :: rest =>
    match o with
    | .ok a => some (.ok a, 1)
    | .error e =>
      if isRetryable e then
        if n = 0 then some (.error e, 1)
        else
          match runRetry n rest with
          | some (r, k) => some (r, k + 1)
          | none => none
      else some (.error e, 1)

/-! Model of the Pagination Engine's offset strategy. -/

/-- Modelled from the spec: the offset strategy of the Pagination
Engine (src/utils/pagination is not in the source snapshot beyond the
registry in config.js; spec section 4.7).  Each iteration fetches the
current page, the page number advances by exactly 1 per fetch, and the
loop terminates exactly when a fetched page holds fewer items than the
requested per-page size.  Returns the concatenated items and the list
of page numbers fetched; the fuel bounds the recursion. -/
def offsetLoop {α : Type} (fetch : Nat → List α) (perPage : Nat) :
    Nat → Nat → List α × List Nat
  | 0, _ => ([], [])
  | fuel+1, page =>
    let items := fetch page
    if items.length < perPage then
      (items, [page])
    else
      let rest := offsetLoop fetch perPage fuel (page + 1)
      (items ++ rest.1, page :: rest.2)

/-- Modelled from the spec: `toArray()` over an offset-paged resource —
iteration starts at page 1 and exhausts the iterator, concatenating in
arrival order. -/
def offsetToArray {α : Type} (fetch : Nat → List α) (perPage fuel : Nat) :
    List α × List Nat :=
  offsetLoop fetch perPage fuel 1

/-- A mock offset-paged backend over `total` items `0, 1, ...`:
page `p` returns the slice of length `perPage` starting at
`(p - 1) * perPage`. -/
def mockFetch (total perPage page : Nat) : List Nat :=
  ((List.range total).drop ((page - 1) * perPage)).take perPage

/-! Interleaving model of two concurrent `ensureValidToken` callers
(base-client.ts:503-521).  A caller synchronously reads the token
status, then — if authentication is needed — issues the network
authentication call (an await suspension point inside `authenticate`)
and later resumes to store the token.  The code takes no lock and
caches no in-flight promise, so another caller may run between the
check and the store. -/

/-- Program counter of one caller: 0 = before the synchronous
`getTokenStatus` check, 1 = decided that authentication is needed,
2 = network authentication call in flight, 3 = done. -/
def callerStep (pc : Nat) (tokenValid : Bool) : Nat × Bool :=
  match pc with
  | 0 => (if tokenValid then 3 else 1, tokenValid)
  | 1 => (2, tokenValid)
  | 2 => (3, true)
  | _ => (pc, tokenValid)

/-- Shared-state run of two callers under a schedule (`false` picks
caller A, `true` picks caller B), returning the trajectory's maximal
number of simultaneously in-flight authentication calls. -/
def inFlightCount (s : Nat × Nat × Bool) : Nat :=
  (if s.1 = 2 then 1 else 0) + (if s.2.1 = 2 then 1 else 0)

/-- Runs the schedule and returns the maximum of `inFlightCount` over
all states reached. -/
def maxInFlight : List Bool → (Nat × Nat × Bool) → Nat
  | [], s => inFlightCount s
  | i :: rest, (pA, pB, tv) =>
    let s' :=
      if i then
        let (pB1, tv1) := callerStep pB tv
        (pA, pB1, tv1)
      else
        let (pA1, tv1) := callerStep pA tv
        (pA1, pB, tv1)
    max (inFlightCount (pA, pB, tv)) (maxInFlight rest s')

/-- Initial state of two concurrent callers with no valid token. -/
def ensureInit : Nat × Nat × Bool := (0, 0, false)

/-! Model of the client-side validation in `getCampaigns`
(campaign-api.ts:31-97). -/

/-- The parameters of `getCampaigns` that its parameter-building and
validation logic reads; `none` models a JS `undefined`. -/
structure GetCampaignsParams where
  sort : Option String := none
  order : Option String := none
  status : Option String := none
  name : Option String := none
  type : Option String := none
  list_id : Option String := none
  page : Option Nat := none
  per_page : Option Nat := none
  with_count : Option Bool := none
  account_id : Option Nat := none
  deriving Repr, DecidableEq

/-- JS truthiness of an optional string (absent or empty is falsy). -/
def truthyStr : Option String → Bool
  | none => false
  | some s => s ≠ ""

/-- JS truthiness of an optional number (absent or zero is falsy). -/
def truthyNat : Option Nat → Bool
  | none => false
  | some n => n ≠ 0

/-- The sort terms accepted by `getCampaigns`
(campaign-api.ts:79). -/
def validSortTerms : List String :=
  ["name", "created_on", "scheduled_for", "scheduled_on", "updated_on", "type"]

/-- Embedding of the parameter building and validation of
`getCampaigns` (campaign-api.ts:31-97), with `currentAccountId` the
already-resolved result of `getCurrentAccountId`.  Builds `apiParams`
(sort with direction prefix, `;`-joined filters, truthy direct
parameters, account id), then rejects an invalid sort term, then
rejects `per_page > 50`; otherwise the request is issued with the
built query parameters. -/
def getCampaigns (p : GetCampaignsParams) (currentAccountId : Option Nat) :
    Except String (List (String × String)) :=
  let direction := if p.order = some "desc" then "-" else "+"
  let sortVal := if truthyStr p.sort then direction ++ p.sort.getD "" else "-created_on"
  let filters : List String :=
    (if truthyStr p.status then ["status==" ++ p.status.getD ""] else []) ++
    (if truthyStr p.name then ["name==" ++ p.name.getD ""] else []) ++
    (if truthyStr p.type then ["type==" ++ p.type.getD ""] else []) ++
    (if truthyStr p.list_id then ["list_id==" ++ p.list_id.getD ""] else [])
  let filterParams := if filters = [] then [] else
    [("filter", String.intercalate ";" filters)]
  let pageParams := if truthyNat p.page then [("page", toString (p.page.getD 0))] else []
  let perPageParams := if truthyNat p.per_page then
    [("per_page", toString (p.per_page.getD 0))] else []
  let wcParams := if p.with_count = some true then [("with_count", "true")] else []
  let accountParams := match (if truthyNat p.account_id then p.account_id else currentAccountId) with
    | some a => if a ≠ 0 then [("account_id", toString a)] else []
    | none => []
  if truthyStr p.sort && !(validSortTerms.contains (p.sort.getD "")) then
    .error ("Invalid sort term " ++ p.sort.getD "")
  else if truthyNat p.per_page && 50 < p.per_page.getD 0 then
    .error "per_page cannot exceed 50 (API limit)"
  else
    .ok ([("sort", sortVal)] ++ filterParams ++ pageParams ++ perPageParams ++
      wcParams ++ accountParams)

/-! Helper lemmas. -/

/-- The retry loop never performs a stage its operation does not
contain. -/
lemma notin_executeWithRetryEv (op : List Ev) (e : Ev) (hop : e ∉ op) :
    ∀ (m : Nat) (os : List AttemptRes), e ∉ executeWithRetryEv op m os := by
  intro m
  induction m with
  | zero => intro os; simp [executeWithRetryEv]
  | succ n ih =>
    intro os
    cases os with
    | nil => simp [executeWithRetryEv]
    | cons o rest =>
      simp only [executeWithRetryEv, List.mem_append]
      rintro (h | h)
      · exact hop h
      · cases o <;> simp_all [ih rest]

/-- The pages visited by the offset loop are consecutive, starting at
the initial page. -/
lemma offsetLoop_pages {α : Type} (fetch : Nat → List α) (pp : Nat) :
    ∀ (fuel page : Nat), ∃ k, (offsetLoop fetch pp fuel page).2 = List.range' page k := by
  intro fuel
  induction fuel with
  | zero => intro page; exact ⟨0, rfl⟩
  | succ n ih =>
    intro page
    by_cases h : (fetch page).length < pp
    · exact ⟨1, by simp [offsetLoop, h]⟩
    · obtain ⟨k, hk⟩ := ih (page + 1)
      exact ⟨k + 1, by simp [offsetLoop, h, hk, List.range'_succ]⟩

/-! Claim C1. -/

/-- C1 counterexample: the spec's composition order — queue admission
first, then the breaker gate, then retries with credential validation
inside each attempt after rate-limit acquisition — does not hold of
`makeRequest`: with rate limiting and the breaker enabled and a single
successful attempt, the code's stage trace puts `ensureValid` first,
before queue admission and before the rate-limiter acquire. -/
theorem makeRequest_order_cex :
    ¬ (∀ (rl cb : Bool) (m : Nat) (os : List AttemptRes),
        makeRequestEv rl cb m os = specMakeRequestEv rl cb m os) :=
  fun h => absurd (h true true 3 [.success]) (by decide)

/-- C1 amended: for every call, `makeRequest` validates the credential
exactly once, first, before queue admission; then come queue
admission, the circuit-breaker gate when enabled, and the retry
manager, each of whose attempts performs rate-limit acquisition (when
enabled), the network call and response classification, with no
credential validation inside any attempt. -/
theorem makeRequest_stage_order (rl cb : Bool) (m : Nat) (os : List AttemptRes) :
    makeRequestEv rl cb m os =
      .ensureValid :: .queueAdmit ::
        ((if cb then [Ev.breakerGate] else []) ++ executeWithRetryEv (operationEv rl) m os) ∧
    Ev.ensureValid ∉ executeWithRetryEv (operationEv rl) m os ∧
    operationEv rl = (if rl then [Ev.rlAcquire] else []) ++ [Ev.netCall, Ev.classify] := by
  refine ⟨?_, ?_, ?_⟩
  · cases cb <;> simp [makeRequestEv, requestQueueAddEv, circuitBreakerExecuteEv]
  · exact notin_executeWithRetryEv _ _ (by cases rl <;> decide) m os
  · cases rl <;> rfl

/-! Claim C6. -/

/-- C6: the offset iterator's pages are always consecutive (the page
number advances by exactly 1 per fetch), and over a mock resource of
125 items with per_page 50, `toArray` returns exactly the 125 items in
original order using exactly the three page fetches 1, 2, 3 — whose
sizes are 50, 50 and 25 — and issues no 4th request. -/
theorem offset_pagination_toArray :
    (∀ (α : Type) (fetch : Nat → List α) (pp fuel page : Nat),
      ∃ k, (offsetLoop fetch pp fuel page).2 = List.range' page k) ∧
    offsetToArray (mockFetch 125 50) 50 10 = (List.range 125, [1, 2, 3]) ∧
    (mockFetch 125 50 1).length = 50 ∧
    (mockFetch 125 50 2).length = 50 ∧
    (mockFetch 125 50 3).length = 25 := by
  refine ⟨fun α fetch pp fuel page => offsetLoop_pages fetch pp fuel page, ?_, ?_, ?_, ?_⟩ <;> decide

/-! Claim C8. -/

/-- C8 counterexample: `ensureValidToken` takes no lock and caches no
in-flight promise, so the single-flight property fails: under the
interleaving where both callers pass the token-status check before
either issues its authentication call, two network authentication
calls are in flight simultaneously. -/
theorem ensureValid_serialization_cex :
    ¬ (∀ sched : List Bool, maxInFlight sched ensureInit ≤ 1) :=
  fun h => absurd (h [false, true, false, true]) (by decide)

/-- C8 amended: `ensureValidToken` performs no cross-caller
serialization: an interleaving of two concurrent callers can hold two
authentication calls in flight at once; only when the callers run
sequentially (the second checks after the first completes and has
stored the token) is at most one call in flight. -/
theorem ensureValid_concurrent_auth :
    maxInFlight [false, true, false, true] ensureInit = 2 ∧
    maxInFlight [false, false, false, true, true, true] ensureInit ≤ 1 := by
  decide

/-! Claim C9. -/

/-- C9 counterexample: the claim that no operation rejects a call
solely because per_page exceeds 50 fails: `getCampaigns` with
per_page 51 throws `per_page cannot exceed 50 (API limit)` before
issuing any request. -/
theorem getCampaigns_perpage_cex :
    ¬ (∀ (p : GetCampaignsParams) (acc : Option Nat),
        getCampaigns p acc ≠ .error "per_page cannot exceed 50 (API limit)") :=
  fun h => h { per_page := some 51 } none (by rfl)

/-- C9 amended: the legacy `getCampaigns` method does enforce the
pagination limit client-side: with the other parameters defaulted it
rejects a call with the per_page error exactly when per_page exceeds
50. -/
theorem getCampaigns_perpage_limit (n : Nat) :
    (getCampaigns { per_page := some n } none =
        .error "per_page cannot exceed 50 (API limit)") ↔ 50 < n := by
  by_cases h : 50 < n
  · simp only [h, iff_true]
    have hn : n ≠ 0 := by omega
    simp [getCampaigns, truthyStr, truthyNat, hn, h]
  · simp only [h, iff_false]
    simp [getCampaigns, truthyStr, truthyNat, h]

/-- When the refresh-first condition of `authenticate` fails, the first
network call of the loop is a password grant. -/
lemma authGo_head_password (now : Int) (fuel rc : Nat) (st : ClientState)
    (outs : List AuthCallOut) (h : tryRefresh st now = false) :
    (authGo now (fuel+1) rc st outs).2.2.1.head? = some AuthEv.passwordCall := by
  simp only [authGo, h, Bool.false_eq_true, if_false, ite_false]
  rcases htk : takeOut outs with ⟨o, rest⟩
  simp only [htk]
  rcases o with msg | ⟨s, b, tok⟩
  · simp only [passwordAuthenticate]
    by_cases h3 : rc + 1 ≥ 3 <;> simp [h3]
  · simp only [passwordAuthenticate]
    by_cases hok : 200 ≤ s ∧ s < 300
    · simp [hok]
    · by_cases h3 : rc + 1 ≥ 3 <;> simp [hok, h3]

/-- All auth events are password calls when no token is stored. -/
lemma authGo_password_only (now : Int) :
    ∀ (fuel rc : Nat) (st : ClientState) (outs : List AuthCallOut),
      st.token = none →
      ∀ ev ∈ (authGo now fuel rc st outs).2.2.1, ev = AuthEv.passwordCall := by
  intro fuel
  induction fuel with
  | zero => intro rc st outs h ev hev; simp [authGo] at hev
  | succ n ih =>
    intro rc st outs h ev hev
    have htr : tryRefresh st now = false := by simp [tryRefresh, h]
    simp only [authGo, htr, Bool.false_eq_true, if_false, ite_false] at hev
    rcases htk : takeOut outs with ⟨o, rest⟩
    rw [htk] at hev
    rcases o with msg | ⟨s, b, tok⟩
    · simp only [passwordAuthenticate] at hev
      by_cases h3 : rc + 1 ≥ 3
      · simp [h3] at hev; simp [hev]
      · simp [h3] at hev
        rcases hev with hev | hev
        · simp [hev]
        · exact ih (rc+1) st rest h ev hev
    · by_cases hok : 200 ≤ s ∧ s < 300
      · simp [passwordAuthenticate, hok] at hev; simp [hev]
      · by_cases h3 : rc + 1 ≥ 3
        · simp [passwordAuthenticate, hok, h3] at hev; simp [hev]
        · simp [passwordAuthenticate, hok, h3] at hev
          rcases hev with hev | hev
          · simp [hev]
          · exact ih (rc+1) st rest h ev hev

/-- A failed refresh leaves the credential state unchanged, or clears
it entirely on a 401/403. -/
lemma refreshToken_error_state (st : ClientState) (now : Int) (o : AuthCallOut)
    (err : CakemailErr) (h : (refreshToken st now o).2 = .error err) :
    (refreshToken st now o).1 = st ∨
    (refreshToken st now o).1 = { token := none, tokenExpiry := none } := by
  rcases hb : st.token.bind (fun t => t.refresh_token) with _ | r
  · left; simp [refreshToken, hb]
  · rcases o with msg | ⟨s, b, tok⟩
    · left; simp [refreshToken, hb]
    · by_cases hok : 200 ≤ s ∧ s < 300
      · simp [refreshToken, hb, hok] at h
      · by_cases h43 : s = 401 ∨ s = 403
        · right; simp [refreshToken, hb, hok, h43]
        · left; simp [refreshToken, hb, hok, h43]

/-- An invalid or expired credential makes the refresh-first condition
of `authenticate` false. -/
lemma tryRefresh_false_of_invalid (st : ClientState) (now : Int)
    (h : (!(getTokenStatus st now).hasToken || (getTokenStatus st now).isExpired) = true) :
    tryRefresh st now = false := by
  rcases ht : st.token with _ | t
  · simp [tryRefresh, ht]
  · rcases he : st.tokenExpiry with _ | e
    · simp [tryRefresh, he]
    · simp only [getTokenStatus, ht, he, Option.isSome_some, Bool.not_true,
        Bool.false_or, decide_eq_true_eq] at h
      simp only [tryRefresh, he, Bool.and_eq_false_iff]
      right
      simp only [decide_eq_false_iff_not, not_lt]
      omega

/-- A soft-expired stored expiry makes the refresh-first condition
false. -/
lemma tryRefresh_false_of_soft (st : ClientState) (now : Int) (e : Int)
    (he : st.tokenExpiry = some e) (h : e - 300000 ≤ now) :
    tryRefresh st now = false := by
  simp only [tryRefresh, he, Bool.and_eq_false_iff]
  right
  simp only [decide_eq_false_iff_not, not_lt]
  omega

/-- C2: a refresh request answered 401 or 403 clears the whole stored
credential and raises an authentication error, and the next
`ensureValidToken` on the cleared state performs password acquisition
only (its first and every network call is a password grant, never
another refresh). -/
theorem refresh_401_clears (st : ClientState) (now : Int) (t : TokenData) (r : String)
    (b : ErrBody) (tok : TokenData) (s : Nat) (outs : List AuthCallOut)
    (ht : st.token = some t) (hr : t.refresh_token = some r)
    (hs : s = 401 ∨ s = 403) :
    refreshToken st now (.resp s b tok) =
      ({ token := none, tokenExpiry := none },
       .error (.auth "Refresh token invalid, password authentication required")) ∧
    (ensureValidToken false { token := none, tokenExpiry := none } now outs).2.2.1.head? =
      some AuthEv.passwordCall ∧
    ∀ ev ∈ (ensureValidToken false { token := none, tokenExpiry := none } now outs).2.2.1,
      ev = AuthEv.passwordCall := by
  have hb : st.token.bind (fun x => x.refresh_token) = some r := by simp [ht, hr]
  have hred : ensureValidToken false { token := none, tokenExpiry := none } now outs =
      authenticate { token := none, tokenExpiry := none } now outs := by
    simp [ensureValidToken, getTokenStatus]
  refine ⟨?_, ?_, ?_⟩
  · rcases hs with rfl | rfl <;> simp [refreshToken, hb]
  · rw [hred]
    exact authGo_head_password now 2 0 _ outs (by simp [tryRefresh])
  · rw [hred]
    exact authGo_password_only now 3 0 _ outs rfl

/-- C2 witness. -/
theorem refresh_401_clears_witness :
    refreshToken
        { token := some { access_token := "a", refresh_token := some "r",
                          token_type := "bearer", expires_in := 3600 },
          tokenExpiry := some 1000 } 0
        (.resp 401 (.detail "bad") { access_token := "x", refresh_token := none,
                                     token_type := "bearer", expires_in := 3600 }) =
      ({ token := none, tokenExpiry := none },
       .error (.auth "Refresh token invalid, password authentication required")) :=
  (refresh_401_clears
    { token := some { access_token := "a", refresh_token := some "r",
                      token_type := "bearer", expires_in := 3600 },
      tokenExpiry := some 1000 } 0
    { access_token := "a", refresh_token := some "r",
      token_type := "bearer", expires_in := 3600 } "r"
    (.detail "bad")
    { access_token := "x", refresh_token := none,
      token_type := "bearer", expires_in := 3600 } 401 []
    rfl rfl (Or.inl rfl)).1

/-- C7: both credential-mutating operations, password acquisition and
refresh, replace the single stored credential wholesale and store an
expiry exactly 60000 ms before the credential's true expiry
`now + expires_in * 1000`, so the stored expiry is strictly earlier
than the true one by that fixed safety margin. -/
theorem credential_margin (st : ClientState) (now : Int) (s : Nat) (b : ErrBody)
    (tok t : TokenData) (r : String)
    (hok : 200 ≤ s ∧ s < 300) (ht : st.token = some t) (hr : t.refresh_token = some r) :
    passwordAuthenticate st now (.resp s b tok) =
      ({ token := some tok, tokenExpiry := some (now + tok.expires_in * 1000 - 60000) },
       .ok ()) ∧
    refreshToken st now (.resp s b tok) =
      ({ token := some tok, tokenExpiry := some (now + tok.expires_in * 1000 - 60000) },
       .ok ()) ∧
    now + tok.expires_in * 1000 - 60000 = (now + tok.expires_in * 1000) - 60000 ∧
    now + tok.expires_in * 1000 - 60000 < now + tok.expires_in * 1000 := by
  have hb : st.token.bind (fun x => x.refresh_token) = some r := by simp [ht, hr]
  exact ⟨by simp [passwordAuthenticate, hok], by simp [refreshToken, hb, hok],
    rfl, by omega⟩

/-- C7 witness. -/
theorem credential_margin_witness :
    passwordAuthenticate
        { token := some { access_token := "a", refresh_token := some "r",
                          token_type := "bearer", expires_in := 3600 },
          tokenExpiry := some 0 } 5
        (.resp 200 (.detail "") { access_token := "n", refresh_token := some "nr",
                                  token_type := "bearer", expires_in := 3600 }) =
      ({ token := some { access_token := "n", refresh_token := some "nr",
                         token_type := "bearer", expires_in := 3600 },
         tokenExpiry := some (5 + 3600 * 1000 - 60000) }, .ok ()) :=
  (credential_margin
    { token := some { access_token := "a", refresh_token := some "r",
                      token_type := "bearer", expires_in := 3600 },
      tokenExpiry := some 0 } 5 200 (.detail "")
    { access_token := "n", refresh_token := some "nr",
      token_type := "bearer", expires_in := 3600 }
    { access_token := "a", refresh_token := some "r",
      token_type := "bearer", expires_in := 3600 } "r"
    (by omega) rfl rfl).1

/-- Each loop iteration of `authenticate` performs exactly one password
grant (after an optional refresh), so the password-grant count is
bounded by the remaining iteration budget. -/
lemma authGo_pwd_count (now : Int) :
    ∀ (fuel rc : Nat) (st : ClientState) (outs : List AuthCallOut),
      ((authGo now fuel rc st outs).2.2.1.count AuthEv.passwordCall) ≤ fuel := by
  intro fuel
  induction fuel with
  | zero => intro rc st outs; simp [authGo]
  | succ n ih =>
    intro rc st outs
    by_cases htr : tryRefresh st now = true
    · simp only [authGo, htr, if_true, ite_true]
      rcases hr1 : (refreshToken st now (takeOut outs).1).2 with e | a
      · rcases hp : (passwordAuthenticate (refreshToken st now (takeOut outs).1).1 now
            (takeOut (takeOut outs).2).1).2 with e2 | a
        · by_cases h3 : rc + 1 ≥ 3
          · simp [h3]
          · simp only [h3, if_false, ite_false]
            have h2 := Nat.succ_le_succ (ih (rc + 1)
              (passwordAuthenticate (refreshToken st now (takeOut outs).1).1 now
                (takeOut (takeOut outs).2).1).1 (takeOut (takeOut outs).2).2)
            simpa using h2
        · simp
      · simp
    · have htr' : tryRefresh st now = false := by
        cases h : tryRefresh st now
        · rfl
        · exact absurd h htr
      simp only [authGo, htr', Bool.false_eq_true, if_false, ite_false]
      rcases hp : (passwordAuthenticate st now (takeOut outs).1).2 with e2 | a
      · by_cases h3 : rc + 1 ≥ 3
        · simp [h3]
        · simp only [h3, if_false, ite_false]
          have h2 := Nat.succ_le_succ
            (ih (rc + 1) (passwordAuthenticate st now (takeOut outs).1).1 (takeOut outs).2)
          simpa using h2
      · simp

/-- C10: `authenticate` performs at most 3 attempts for every outcome
sequence, and when three consecutive password grants fail it sleeps
the exponentially growing backoffs 2000 ms and 4000 ms between
attempts and rethrows the third attempt's error unchanged. -/
theorem authenticate_retry_bound (now : Int) (st0 : ClientState)
    (outs0 : List AuthCallOut)
    (s1 s2 s3 : Nat) (b1 b2 b3 : ErrBody) (k1 k2 k3 : TokenData)
    (h1 : ¬ (200 ≤ s1 ∧ s1 < 300)) (h2 : ¬ (200 ≤ s2 ∧ s2 < 300))
    (h3 : ¬ (200 ≤ s3 ∧ s3 < 300)) :
    (authenticate st0 now outs0).2.2.1.count AuthEv.passwordCall ≤ 3 ∧
    authenticate { token := none, tokenExpiry := none } now
        [.resp s1 b1 k1, .resp s2 b2 k2, .resp s3 b3 k3] =
      ({ token := none, tokenExpiry := none },
       .error (.auth ("Authentication failed (" ++ toString s3 ++ ")")),
       [.passwordCall, .passwordCall, .passwordCall], [2000, 4000]) := by
  constructor
  · exact authGo_pwd_count now 3 0 st0 outs0
  · simp [authenticate, authGo, tryRefresh, takeOut, passwordAuthenticate, h1, h2, h3]

/-- C10 witness. -/
theorem authenticate_retry_bound_witness :
    authenticate { token := none, tokenExpiry := none } 0
        [.resp 401 (.detail "bad") { access_token := "x", refresh_token := none,
                                     token_type := "bearer", expires_in := 3600 },
         .resp 401 (.detail "bad") { access_token := "x", refresh_token := none,
                                     token_type := "bearer", expires_in := 3600 },
         .resp 500 (.detail "boom") { access_token := "x", refresh_token := none,
                                      token_type := "bearer", expires_in := 3600 }] =
      ({ token := none, tokenExpiry := none },
       .error (.auth "Authentication failed (500)"),
       [.passwordCall, .passwordCall, .passwordCall], [2000, 4000]) :=
  (authenticate_retry_bound 0 { token := none, tokenExpiry := none } []
    401 401 500 (.detail "bad") (.detail "bad") (.detail "boom")
    { access_token := "x", refresh_token := none, token_type := "bearer", expires_in := 3600 }
    { access_token := "x", refresh_token := none, token_type := "bearer", expires_in := 3600 }
    { access_token := "x", refresh_token := none, token_type := "bearer", expires_in := 3600 }
    (by omega) (by omega) (by omega)).2

/-- C5: when a due refresh fails for any reason, `ensureValidToken`
falls back to `authenticate`, whose first network call is a password
grant, and the refresh error itself is discarded (the surfaced result
is whatever the fallback acquisition produces); moreover a refresh is
ever attempted first only when the status shows a refresh token and a
not-yet-expired credential. -/
theorem ensureValid_refresh_fallback (st : ClientState) (now : Int) (t : TokenData)
    (r : String) (e : Int) (o : AuthCallOut) (rest : List AuthCallOut) (err : CakemailErr)
    (ht : st.token = some t) (hr : t.refresh_token = some r) (he : st.tokenExpiry = some e)
    (hlt : now < e) (hsoft : e - 300000 ≤ now)
    (herr : (refreshToken st now o).2 = .error err) :
    ensureValidToken false st now (o :: rest) =
      ((authenticate (refreshToken st now o).1 now rest).1,
       (authenticate (refreshToken st now o).1 now rest).2.1,
       AuthEv.refreshCall :: (authenticate (refreshToken st now o).1 now rest).2.2.1,
       (authenticate (refreshToken st now o).1 now rest).2.2.2) ∧
    (authenticate (refreshToken st now o).1 now rest).2.2.1.head? =
      some AuthEv.passwordCall ∧
    (∀ (st2 : ClientState) (outs2 : List AuthCallOut),
      ((ensureValidToken false st2 now outs2).2.2.1).head? = some AuthEv.refreshCall →
      (getTokenStatus st2 now).hasRefreshToken = true ∧
      (getTokenStatus st2 now).isExpired = false) := by
  have hrt : st.token.bind (fun x => x.refresh_token) = some r := by simp [ht, hr]
  have hstat : getTokenStatus st now =
      { hasToken := true, isExpired := false, needsRefresh := true,
        hasRefreshToken := true } := by
    simp only [getTokenStatus, ht, he, Option.isSome_some, if_true, ite_true,
      Option.some_bind, hr, TokenStatus.mk.injEq]
    refine ⟨trivial, ?_, ?_, trivial⟩
    · simp only [decide_eq_false_iff_not, not_le]; omega
    · simp only [decide_eq_true_eq]; omega
  refine ⟨?_, ?_, ?_⟩
  · simp only [ensureValidToken, hstat, Bool.not_true, Bool.false_or,
      Bool.false_eq_true, if_false, ite_false, Bool.and_self, if_true, ite_true, takeOut]
    rcases hR : refreshToken st now o with ⟨st1, r1⟩
    rw [hR] at herr
    simp only at herr
    subst herr
    simp
  · have hone : tryRefresh (refreshToken st now o).1 now = false := by
      rcases refreshToken_error_state st now o err herr with hcase | hcase
      · rw [hcase]; exact tryRefresh_false_of_soft st now e he hsoft
      · rw [hcase]; simp [tryRefresh]
    exact authGo_head_password now 2 0 _ rest hone
  · intro st2 outs2 hhead
    by_cases hb1 : (!(getTokenStatus st2 now).hasToken ||
        (getTokenStatus st2 now).isExpired) = true
    · exfalso
      rw [ensureValidToken] at hhead
      simp only [Bool.false_eq_true, if_false, ite_false, hb1, if_true, ite_true] at hhead
      have hpw := authGo_head_password now 2 0 st2 outs2
        (tryRefresh_false_of_invalid st2 now hb1)
      simp only [authenticate] at hhead
      exact absurd (hpw.symm.trans hhead) (by simp)
    · have hb1' : (!(getTokenStatus st2 now).hasToken ||
          (getTokenStatus st2 now).isExpired) = false := by
        cases hx : (!(getTokenStatus st2 now).hasToken || (getTokenStatus st2 now).isExpired)
        · rfl
        · exact absurd hx hb1
      have hexp : (getTokenStatus st2 now).isExpired = false := by
        rcases Bool.or_eq_false_iff.mp hb1' with ⟨_, h⟩
        exact h
      refine ⟨?_, hexp⟩
      by_cases hb2 : ((getTokenStatus st2 now).needsRefresh &&
          (getTokenStatus st2 now).hasRefreshToken) = true
      · simp only [Bool.and_eq_true] at hb2
        exact hb2.2
      · exfalso
        rw [ensureValidToken] at hhead
        simp only [Bool.false_eq_true, if_false, ite_false, hb1, hb2] at hhead
        simp at hhead

/-- C5 witness. -/
theorem ensureValid_refresh_fallback_witness :
    (authenticate
        (refreshToken
          { token := some { access_token := "a", refresh_token := some "r",
                            token_type := "bearer", expires_in := 3600 },
            tokenExpiry := some 400000 } 200000
          (.resp 500 (.detail "oops")
            { access_token := "x", refresh_token := none,
              token_type := "bearer", expires_in := 3600 })).1
        200000 []).2.2.1.head? = some AuthEv.passwordCall :=
  (ensureValid_refresh_fallback
    { token := some { access_token := "a", refresh_token := some "r",
                      token_type := "bearer", expires_in := 3600 },
      tokenExpiry := some 400000 } 200000
    { access_token := "a", refresh_token := some "r",
      token_type := "bearer", expires_in := 3600 } "r" 400000
    (.resp 500 (.detail "oops")
      { access_token := "x", refresh_token := none,
        token_type := "bearer", expires_in := 3600 }) []
    (.auth "Token refresh failed (500)")
    rfl rfl rfl (by omega) (by omega) rfl).2.1

/-- C3: the retry manager's classifier marks network errors, every
5xx server error and 429 retryable and authentication errors and every
other 4xx non-retryable; `executeWithRetry` surfaces a non-retryable
failure immediately after its first attempt, while a retryable failure
is retried against the remaining budget with the attempt count
incremented. -/
theorem retry_classification {α : Type} (m : String) (b : ErrBody) (s s4 : Nat)
    (e : CakemailErr) (rest : List (Except CakemailErr α)) (n : Nat)
    (h5a : 500 ≤ s) (h5b : s ≤ 599)
    (h4a : 400 ≤ s4) (h4b : s4 ≤ 499) (h4c : s4 ≠ 429) :
    isRetryable (.network m) = true ∧
    isRetryable (.api s b) = true ∧
    isRetryable (.api 429 b) = true ∧
    isRetryable (.api s4 b) = false ∧
    isRetryable (.auth m) = false ∧
    (isRetryable e = false →
      runRetry (n + 1) (.error e :: rest) = some (.error e, 1)) ∧
    (isRetryable e = true → 1 ≤ n →
      runRetry (n + 1) (.error e :: rest) =
        (runRetry n rest).map (fun p => (p.1, p.2 + 1))) := by
  refine ⟨rfl, ?_, by simp [isRetryable], ?_, rfl, ?_, ?_⟩
  · simp only [isRetryable, Bool.or_eq_true, Bool.and_eq_true, decide_eq_true_eq]
    left; omega
  · simp only [isRetryable, Bool.or_eq_false_iff, Bool.and_eq_false_iff,
      decide_eq_false_iff_not]
    constructor
    · left; omega
    · omega
  · intro hf
    simp [runRetry, hf]
  · intro ht hn
    have hn0 : n ≠ 0 := by omega
    simp only [runRetry, ht, if_true, ite_true, hn0, if_false, ite_false]
    rcases hrr : runRetry n rest with _ | ⟨rr, k⟩ <;> simp

/-- C3 witness. -/
theorem retry_classification_witness :
    isRetryable (CakemailErr.api 503 (.detail "d")) = true ∧
    isRetryable (CakemailErr.api 404 (.detail "d")) = false ∧
    runRetry (α := Unit) 2 [.error (.api 404 (.detail "d")), .ok ()] =
      some (.error (.api 404 (.detail "d")), 1) ∧
    runRetry (α := Unit) 2 [.error (.api 500 (.detail "d")), .ok ()] =
      some (.ok (), 2) := by
  have h := retry_classification (α := Unit) "m" (.detail "d") 503 404
    (.api 404 (.detail "d")) [.ok ()] 1
    (by omega) (by omega) (by omega) (by omega) (by omega)
  have h' := retry_classification (α := Unit) "m" (.detail "d") 503 404
    (.api 500 (.detail "d")) [.ok ()] 1
    (by omega) (by omega) (by omega) (by omega) (by omega)
  refine ⟨h.2.1, h.2.2.2.1, ?_, ?_⟩
  · rw [h.2.2.2.2.2.1 (by rfl)]
  · rw [h'.2.2.2.2.2.2 (by rfl) (by omega)]
    rfl

/-- C4: with a token present, `executeRequest` maps a fetch rejection
or a timeout to a network-error kind, a non-2xx response to the
structured API error carrying its status and parsed error body, a 2xx
JSON response whose body parses to its parsed body, and a 2xx response
without a JSON content type to exactly the success/status value; a 2xx
JSON response whose body does not parse rejects with the raw parse
error (base-client.ts:332 is outside any try/catch), not a success
value. -/
theorem executeRequest_classification (tk msg : String) (r : HttpResponse) :
    executeRequest none (some tk) (.reject msg) =
      .error (.thrown (.network ("Network error: " ++ msg))) ∧
    executeRequest none (some tk) (.timedOut msg) =
      .error (.thrown (.network ("Network error: " ++ msg))) ∧
    (r.ok = false →
      executeRequest none (some tk) (.resp r) =
        .error (.thrown (.api r.status (parseErrorResponse r)))) ∧
    (r.ok = true → r.contentTypeJson = true → r.bodyParses = true →
      executeRequest none (some tk) (.resp r) = .ok (.json r.body)) ∧
    (r.ok = true → r.contentTypeJson = true → r.bodyParses = false →
      executeRequest none (some tk) (.resp r) = .error (.jsonParseFail r.body)) ∧
    (r.ok = true → r.contentTypeJson = false →
      executeRequest none (some tk) (.resp r) = .ok (.successStatus r.status)) := by
  refine ⟨rfl, rfl, ?_, ?_, ?_, ?_⟩
  · intro hok
    simp [executeRequest, Option.orElse, hok]
  · intro hok hjson hparse
    simp [executeRequest, Option.orElse, hok, hjson, hparse]
  · intro hok hjson hparse
    simp [executeRequest, Option.orElse, hok, hjson, hparse]
  · intro hok hjson
    simp [executeRequest, Option.orElse, hok, hjson]

/-- C4 witness. -/
theorem executeRequest_classification_witness :
    executeRequest none (some "tk")
        (.resp { status := 404, statusText := "Not Found", contentTypeJson := true,
                 body := "oops", bodyParses := true }) =
      .error (.thrown (.api 404 (.parsed "oops"))) ∧
    executeRequest none (some "tk")
        (.resp { status := 200, statusText := "OK", contentTypeJson := true,
                 body := "not json", bodyParses := false }) =
      .error (.jsonParseFail "not json") ∧
    executeRequest none (some "tk")
        (.resp { status := 204, statusText := "No Content", contentTypeJson := false,
                 body := "", bodyParses := false }) =
      .ok (.successStatus 204) := by
  have h := executeRequest_classification "tk" "m"
    { status := 404, statusText := "Not Found", contentTypeJson := true,
      body := "oops", bodyParses := true }
  have hp := executeRequest_classification "tk" "m"
    { status := 200, statusText := "OK", contentTypeJson := true,
      body := "not json", bodyParses := false }
  have h' := executeRequest_classification "tk" "m"
    { status := 204, statusText := "No Content", contentTypeJson := false,
      body := "", bodyParses := false }
  refine ⟨?_, ?_, ?_⟩
  · rw [h.2.2.1 (by rfl)]
    rfl
  · rw [hp.2.2.2.2.1 (by rfl) (by rfl) (by rfl)]
  · rw [h'.2.2.2.2.2 (by rfl) (by rfl)]

end Cakemail
